import Mathlib

/-!
Shallow embedding of the mpb multi-bar progress library (james-antill/mpb)
for checking its natural-language specification.

Conventions of the embedding:
* Go `int`, `int64` are modelled as `Int` (overflow is irrelevant at the
  magnitudes the claims are about).
* Go `float64` arithmetic is modelled over `ℚ`; at every concrete input used
  in a theorem or counterexample below the float computations are exact
  (all intermediate values are representable), so the `ℚ` model agrees with
  the code there.  Go's `int64(f)` / `int(f)` conversion truncates toward
  zero, modelled by `f64trunc`.
* Go `time.Time` and `time.Duration` are modelled as `Int` nanoseconds;
  `time.Now()` becomes an explicit `now : Int` parameter, one per inbox
  closure (a closure executes at one instant).
* Go integer division / remainder truncate toward zero: `Int.tdiv` / `Int.tmod`.
-/

/-- Go conversion `int64(f)` (and `int(f)`) of a `float64`: truncation toward
zero (inputs in range). -/
def f64trunc (q : ℚ) : ℤ :=
  if 0 ≤ q then ⌊q⌋ else ⌈q⌉

namespace decor

/-- From src/decor/format.go: binary unit constants. -/
def KiB : ℚ := 1024
def MiB : ℚ := KiB * 1024
def GiB : ℚ := MiB * 1024
def TiB : ℚ := GiB * 1024

/-- From src/decor/format.go: decimal unit constants. -/
def KB : ℚ := 1000
def MB : ℚ := KB * 1000
def GB : ℚ := MB * 1000
def TB : ℚ := GB * 1000

/-- From src/decor/format.go:
`func round(x, unit float64) float64 { return float64(int64(x/unit+0.5)) * unit }` -/
def round (x unit : ℚ) : ℚ :=
  (f64trunc (x / unit + 1 / 2) : ℚ) * unit

/-- From src/decor/decorators.go:
```
func CalcPercentage(total, current int64, width, fill int) (int, int) {
    if total == 0 || current > total { return 0, 0 }
    num := float64(width) * float64(current) / float64(total)
    if fill > 0 {
        rem := num - float64(int(num))
        return int(num), int(rem / (1.0 / float64(fill)))
    }
    return int(round(num, 1)), 0
}
``` -/
def CalcPercentage (total current : ℤ) (width fill : ℤ) : ℤ × ℤ :=
  if total = 0 ∨ current > total then (0, 0)
  else
    let num : ℚ := (width : ℚ) * (current : ℚ) / (total : ℚ)
    if fill > 0 then
      let rem : ℚ := num - (f64trunc num : ℚ)
      (f64trunc num, f64trunc (rem / (1 / (fill : ℚ))))
    else
      (f64trunc (round num 1), 0)

/-- Go `fmt.Sprintf("%3d", n)`: decimal, right justified to minimum width 3. -/
def sprint3d (n : ℤ) : String :=
  let s := toString n
  if s.length < 3 then String.mk (List.replicate (3 - s.length) ' ') ++ s else s

/-- Round a rational to the nearest integer, ties to the even integer: the
rounding Go's `strconv` applies to the decimal digit stream when formatting
with `%.1f` (at the inputs used below the value is exact at one decimal, so
no tie is ever hit). -/
def roundHalfEven (q : ℚ) : ℤ :=
  let fl := ⌊q⌋
  let r := q - (fl : ℚ)
  if r < 1 / 2 then fl
  else if 1 / 2 < r then fl + 1
  else if 2 ∣ fl then fl else fl + 1

/-- Go `fmt.Sprintf("%.1f", f)`: one digit after the decimal point. -/
def sprintDot1f (f : ℚ) : String :=
  if f < 0 then
    let t := roundHalfEven (-f * 10)
    "-" ++ toString (t.tdiv 10) ++ "." ++ toString (t.tmod 10)
  else
    let t := roundHalfEven (f * 10)
    toString (t.tdiv 10) ++ "." ++ toString (t.tmod 10)

/-- From src/decor/format.go:
```
func fmtSprint(f float64, ext string) string {
    if round(f, 0.1) >= 10 { return fmt.Sprintf("%3d%s", int(f), ext) }
    return fmt.Sprintf("%.1f%s", f, ext)
}
``` -/
def fmtSprint (f : ℚ) (ext : String) : String :=
  if round f (1 / 10) ≥ 10 then sprint3d (f64trunc f) ++ ext
  else sprintDot1f f ++ ext

/-- From src/decor/format.go: `formatFKiB` (binary thresholds, byte suffixes). -/
def formatFKiB (f : ℚ) : String :=
  if f ≥ TiB then fmtSprint (f / TiB) "TiB"
  else if f ≥ GiB then fmtSprint (f / GiB) "GiB"
  else if f ≥ MiB then fmtSprint (f / MiB) "MiB"
  else if f ≥ KiB then fmtSprint (f / KiB) "KiB"
  else fmtSprint f "b  "

/-- From src/decor/format.go: `formatKiB(i int64)`. -/
def formatKiB (i : ℤ) : String := formatFKiB (i : ℚ)

/-- From src/decor/format.go: `formatFKB` (decimal thresholds, byte suffixes). -/
def formatFKB (f : ℚ) : String :=
  if f ≥ TB then fmtSprint (f / TB) "TB"
  else if f ≥ GB then fmtSprint (f / GB) "GB"
  else if f ≥ MB then fmtSprint (f / MB) "MB"
  else if f ≥ KB then fmtSprint (f / KB) "KB"
  else fmtSprint f "b "

/-- From src/decor/format.go: `formatKB(i int64)`. -/
def formatKB (i : ℤ) : String := formatFKB (i : ℚ)

/-- From src/decor/format.go: `formatFK` (decimal thresholds, bare suffixes). -/
def formatFK (f : ℚ) : String :=
  if f ≥ TB then fmtSprint (f / TB) "T"
  else if f ≥ GB then fmtSprint (f / GB) "G"
  else if f ≥ MB then fmtSprint (f / MB) "M"
  else if f ≥ KB then fmtSprint (f / KB) "K"
  else fmtSprint f " "

/-- From src/decor/format.go: `formatK(i int64)`. -/
def formatK (i : ℤ) : String := formatFK (i : ℚ)

/-- Go time constants, in nanoseconds (the unit of `time.Duration`). -/
def timeMillisecond : ℤ := 1000000

/-- Go `time.Second` in nanoseconds. -/
def timeSecond : ℤ := 1000 * timeMillisecond

/-- Go `time.Minute` in nanoseconds. -/
def timeMinute : ℤ := 60 * timeSecond

/-- Go `time.Hour` in nanoseconds. -/
def timeHour : ℤ := 60 * timeMinute

/-- From src/decor/decorators.go: the `Statistics` snapshot passed to
decorators.  Times are instants in nanoseconds, `timeElapsed` a duration in
nanoseconds. -/
structure Statistics where
  id : ℤ := 0
  completed : Bool := false
  aborted : Bool := false
  total : ℤ := 0
  current : ℤ := 0
  startTime : ℤ := 0
  timeElapsed : ℤ := 0
  timePerItemEstimate : ℤ := 0
  rollStartTime : ℤ := 0
  rollCurrent : ℤ := 0

/-- From src/decor/decorators.go:
```
func (s *Statistics) Eta() time.Duration {
    timeElapsed := time.Since(s.RollStartTime)
    nsec := float64(s.RollCurrent) / timeElapsed.Seconds()
    eta := time.Duration(float64(s.Total-s.Current)/nsec) * time.Second
    return eta
}
```
`time.Since` is made explicit through the `now` parameter.  The result is a
whole number of seconds scaled to nanoseconds, because the float64 to
`time.Duration` conversion truncates. -/
def Eta (now : ℤ) (s : Statistics) : ℤ :=
  let timeElapsed := now - s.rollStartTime
  let nsec : ℚ := (s.rollCurrent : ℚ) / ((timeElapsed : ℚ) / (timeSecond : ℚ))
  f64trunc (((s.total - s.current : ℤ) : ℚ) / nsec) * timeSecond

/-- Go `time.Duration.Round(m)`: rounds to the nearest multiple of `m`,
halves away from zero (the `r+r < m` test of `lessThanHalf`).  The two
overflow branches returning `minDuration`/`maxDuration` are dropped: every
duration handled below is far below 2^63 ns. -/
def durRound (d m : ℤ) : ℤ :=
  if m ≤ 0 then d
  else
    let r := d.tmod m
    if d < 0 then
      let r := -r
      if r + r < m then d + r else d - m + r
    else
      if r + r < m then d - r else d + m - r

/-- Go `time/time.go` helper `fmtFrac(buf, v, prec)`: returns the fraction
part (with leading dot, trailing zeros stripped, empty when the fraction is
zero) together with `v / 10^prec`. -/
def fmtFrac (v : ℕ) (prec : ℕ) : String × ℕ :=
  let rest := v / 10 ^ prec
  let frac := v % 10 ^ prec
  if frac = 0 then ("", rest)
  else
    let s := Nat.toDigits 10 frac
    let s := List.replicate (prec - s.length) '0' ++ s
    let s := (s.reverse.dropWhile (· = '0')).reverse
    ("." ++ String.mk s, rest)

/-- Go `time.Duration.String()`: "72h3m0.5s"-style rendering.  `d` is in
nanoseconds. -/
def durationString (d : ℤ) : String :=
  let u : ℕ := d.natAbs
  let sign := if d < 0 then "-" else ""
  if u < 1000000000 then
    if u = 0 then "0s"
    else if u < 1000 then sign ++ toString u ++ "ns"
    else if u < 1000000 then
      let fr := fmtFrac u 3
      sign ++ toString fr.2 ++ fr.1 ++ "µs"
    else
      let fr := fmtFrac u 6
      sign ++ toString fr.2 ++ fr.1 ++ "ms"
  else
    let fr := fmtFrac u 9
    let secs := fr.2 % 60
    let rest := fr.2 / 60
    if rest = 0 then sign ++ toString secs ++ fr.1 ++ "s"
    else
      let mins := rest % 60
      let hrs := rest / 60
      if hrs = 0 then sign ++ toString mins ++ "m" ++ toString secs ++ fr.1 ++ "s"
      else sign ++ toString hrs ++ "h" ++ toString mins ++ "m" ++ toString secs ++ fr.1 ++ "s"

/-- From src/decor/decorators.go: `smallDurationString(d time.Duration)`. -/
def smallDurationString (d : ℤ) : String :=
  if d > 13 * 7 * 24 * timeHour then ">13w"
  else if d > 7 * 24 * timeHour then
    let hours := (durRound d timeHour).tdiv timeHour
    let days := hours.tdiv 24
    let weeks := days.tdiv 7
    let days := days.tmod 7
    if days > 0 then toString weeks ++ "w" ++ toString days ++ "d"
    else toString weeks ++ "w"
  else if d > 24 * timeHour then
    let hours := (durRound d timeHour).tdiv timeHour
    let days := hours.tdiv 24
    let hours := hours.tmod 24
    if hours > 0 then toString days ++ "d" ++ toString hours ++ "h"
    else toString days ++ "d"
  else if d > 8 * timeHour then durationString (durRound d timeHour)
  else if d > 8 * timeMinute then durationString (durRound d timeMinute)
  else if d > 8 * timeSecond then durationString (durRound d timeSecond)
  else durationString (durRound d (100 * timeMillisecond))

/-- Go `fmt.Sprintf("%02d", n)`: decimal, zero padded to minimum width 2. -/
def sprint02d (n : ℤ) : String :=
  let s := toString n
  if s.length < 2 then "0" ++ s else s

/-- From src/decor/decorators.go: `ETAString(s *Statistics)`.  The implicit
`time.Since(s.RollStartTime)` inside `Eta` is made explicit through `now`.
`dur.Hours()`, `dur.Minutes()`, `dur.Seconds()` are the float64 divisions of
the nanosecond count; `int(...)` truncates. -/
def ETAString (now : ℤ) (s : Statistics) : String :=
  if s.current = s.total then smallDurationString s.timeElapsed
  else
    let dur := Eta now s
    let secs := (f64trunc ((dur : ℚ) / (timeSecond : ℚ))).tmod 60
    if s.rollCurrent = 0 then "∞:??"
    else if (dur : ℚ) / (timeHour : ℚ) > 999 * 24 then "∞"
    else if (dur : ℚ) / (timeHour : ℚ) > 36 then
      let d : ℚ := ((durRound dur (timeHour * 24) : ℤ) : ℚ) / (timeHour : ℚ) / 24
      "~" ++ toString (f64trunc d) ++ "d"
    else if (dur : ℚ) / (timeMinute : ℚ) > 59 then
      let h : ℚ := ((durRound dur timeHour : ℤ) : ℚ) / (timeHour : ℚ)
      "~" ++ toString (f64trunc h) ++ "h"
    else if (dur : ℚ) / (timeSecond : ℚ) < 3 then "~2s"
    else toString (f64trunc ((dur : ℚ) / (timeMinute : ℚ))) ++ ":" ++ sprint02d secs

/-- From src/decor/decorators.go: `DecoratorFunc`.  In Go a decorator also
receives a width channel pair for the per-frame rendezvous; in this pure
model the second argument is the max width the rendezvous result channel
would deliver for the decorator's column (ignored by non-synced
decorators). -/
def DecoratorFunc : Type := Statistics → ℤ → String

end decor

namespace mpb

/-- From src/bar.go: indices into the 5-glyph format `{left, fill, tip,
empty, right}`. -/
def rLeft : ℕ := 0

/-- Format index of the fill glyph. -/
def rFill : ℕ := 1

/-- Format index of the tip glyph. -/
def rTip : ℕ := 2

/-- Format index of the empty glyph. -/
def rEmpty : ℕ := 3

/-- Format index of the right delimiter glyph. -/
def rRight : ℕ := 4

/-- From src/bar.go: `rollAveSlots = 8`. -/
def rollAveSlots : ℕ := 8

/-- From src/bar.go: `rollAveTime = 2 * time.Second` (nanoseconds). -/
def rollAveTime : ℤ := 2 * decor.timeSecond

/-- From src/bar.go: the `refill` record `(char rune, till int64)`. -/
structure refill where
  char : Char
  till : ℤ

/-- From src/bar.go: the bar's `state`, owned by the bar actor.  Byte
segments are modelled at the rune level (every format segment is the UTF-8
encoding of exactly one rune, produced by `fmtRunesToByteSegments` from
`[5]rune` and `[]rune`), times as nanosecond instants, and the
`simpleSpinner` closure as the index it has reached in the glyph cycle. -/
structure state where
  id : ℤ := 0
  width : ℤ := 0
  format : List Char := []
  fmtFill : List Char := []
  etaAlpha : ℚ := 0
  total : ℤ := 0
  current : ℤ := 0
  trimLeftSpace : Bool := false
  trimRightSpace : Bool := false
  started : Bool := false
  completed : Bool := false
  aborted : Bool := false
  startTime : ℤ := 0
  rollTime : List ℤ := List.replicate 8 0
  rollTotal : List ℤ := List.replicate 8 0
  rollOff : ℕ := 0
  appendFuncs : List decor.DecoratorFunc := []
  prependFuncs : List decor.DecoratorFunc := []
  simpleSpinner : Option ℕ := none
  refill : Option refill := none

/-- From src/bar.go: `func (s *state) initETA() { s.rollTime[0] = s.startTime }`. -/
def initETA (s : state) : state :=
  { s with rollTime := s.rollTime.set 0 s.startTime }

/-- From src/bar.go: `func (s *state) updateETA(amount int64)`.  The two
`time.Now()` reads inside one inbox closure are the single instant `now`. -/
def updateETA (now : ℤ) (amount : ℤ) (s : state) : state :=
  if amount = 0 then s
  else
    let dur := now - s.rollTime.getD s.rollOff 0
    let s :=
      if dur > rollAveTime then
        let off := (s.rollOff + 1) % rollAveSlots
        { s with rollOff := off,
                 rollTime := s.rollTime.set off now,
                 rollTotal := s.rollTotal.set off 0 }
      else s
    { s with rollTotal := s.rollTotal.set s.rollOff (s.rollTotal.getD s.rollOff 0 + amount) }

/-- From src/bar.go: `func (s *state) getDataETA() (time.Time, int64)`. -/
def getDataETA (s : state) : ℤ × ℤ :=
  let off := (s.rollOff + 1) % rollAveSlots
  let beg := s.rollTime.getD off 0
  let cur := s.rollTotal.getD off 0
  if cur = 0 then (s.startTime, s.current)
  else
    let cur := (List.range (rollAveSlots - 1)).foldl
      (fun acc i => acc + s.rollTotal.getD ((off + 1 + i) % rollAveSlots) 0) cur
    (beg, cur)

/-- From src/bar.go lines 147-161: the closure `Bar.Incr(n)` sends to the
bar's inbox (executed by the actor at instant `now`):
```
if s.current == 0 && !s.started {
    s.startTime = time.Now(); s.initETA(); s.started = true
}
sum := s.current + int64(n)
s.updateETA(int64(n))
if s.total > 0 && sum >= s.total {
    s.current = s.total; s.completed = true; return
}
s.current = sum
``` -/
def incrOp (now : ℤ) (n : ℤ) (s : state) : state :=
  let s :=
    if s.current = 0 ∧ s.started = false then
      { initETA { s with startTime := now } with started := true }
    else s
  let sum := s.current + n
  let s := updateETA now n s
  if s.total > 0 ∧ sum ≥ s.total then { s with current := s.total, completed := true }
  else { s with current := sum }

/-- From src/bar.go: `Bar.Incr(n)` returns without sending anything when
`n < 0`; otherwise it offers `incrOp` to the inbox.  `none` models "no
operation sent". -/
def IncrSend (n : ℤ) : Option (ℤ → state → state) :=
  if n < 0 then none else some (fun now s => incrOp now n s)

/-- The state effect of `Bar.Incr(n)` on a live bar: apply the sent closure,
or nothing when no closure is sent. -/
def Incr (now n : ℤ) (s : state) : state :=
  match IncrSend n with
  | none => s
  | some op => op now s

/-- From src/bar.go: `func (b *Bar) Update() { b.Incr(0) }`. -/
def Update (now : ℤ) (s : state) : state := Incr now 0 s

/-- From src/bar.go: `Bar.ResumeFill(r, till)`: no-op when `till < 1`,
otherwise stores the refill marker. -/
def ResumeFill (r : Char) (till : ℤ) (s : state) : state :=
  if till < 1 then s else { s with refill := some ⟨r, till⟩ }

/-- The state-mutating operations a producer can drive a live bar actor
with (src/bar.go): `Incr` (also `Update`/`Increment`), `ResumeFill`,
`RemoveAllPrependers`, `RemoveAllAppenders`. -/
inductive BarOp where
  | incr (now n : ℤ)
  | resumeFill (r : Char) (till : ℤ)
  | removeAllPrependers
  | removeAllAppenders

/-- Apply one producer operation to the bar state. -/
def applyOp : BarOp → state → state
  | .incr now n, s => Incr now n s
  | .resumeFill r till, s => ResumeFill r till s
  | .removeAllPrependers, s => { s with prependFuncs := [] }
  | .removeAllAppenders, s => { s with appendFuncs := [] }

/-- Apply a sequence of producer operations in inbox order. -/
def runOps (ops : List BarOp) (s : state) : state :=
  ops.foldl (fun s op => applyOp op s) s

/-- From src/bar.go: `newBar(total, ...)` before any option is applied:
`state{total: total, etaAlpha: 0.25}` (all other fields zero), plus
`simpleSpinner = getSpinner()` when `total <= 0`.  `getSpinner`'s fresh
closure starts at `index = repeat = 3`. -/
def newBar (total : ℤ) : state :=
  let s : state := { total := total, etaAlpha := 1/4 }
  if total ≤ 0 then { s with simpleSpinner := some 3 } else s

/-- From src/bar.go: `fillBar(total, current int64, width int, fmtBytes,
fmtFill fmtByteSegments, rf *refill) []byte`, at the rune level (each byte
segment is the UTF-8 encoding of one rune, so `utf8.DecodeLastRune` plus
truncation is `dropLast`). -/
def fillBar (total current : ℤ) (width : ℤ) (fmtBytes fmtFill : List Char)
    (rf : Option refill) : List Char :=
  if width < 2 ∨ total ≤ 0 then []
  else
    let barWidth := width - 2
    if current ≥ total then
      List.replicate (barWidth + 2).toNat (fmtBytes.getD rEmpty ' ')
    else
      let flen := fmtFill.length
      let cp := decor.CalcPercentage total current barWidth flen
      let completedWidth := cp.1
      let foff := cp.2
      let buf := [fmtBytes.getD rLeft ' ']
      let buf :=
        match rf with
        | some rf =>
          let till := (decor.CalcPercentage total rf.till barWidth 0).1
          buf ++ List.replicate till.toNat rf.char
              ++ List.replicate (completedWidth - till).toNat (fmtBytes.getD rFill ' ')
        | none => buf ++ List.replicate completedWidth.toNat (fmtBytes.getD rFill ' ')
      let step :=
        if flen ≥ 1 then
          if foff ≥ 1 then (buf ++ [fmtFill.getD (foff - 1).toNat ' '], completedWidth + 1)
          else (buf, completedWidth)
        else if completedWidth < barWidth ∧ completedWidth > 0 then
          (buf.dropLast ++ [fmtBytes.getD rTip ' '], completedWidth)
        else (buf, completedWidth)
      step.1 ++ List.replicate (barWidth - step.2).toNat (fmtBytes.getD rEmpty ' ')
          ++ [fmtBytes.getD rRight ' ']

/-- From src/bar.go: `newStatistics(s *state)`; `time.Since(s.startTime)`
made explicit through `now`. -/
def newStatistics (now : ℤ) (s : state) : decor.Statistics :=
  let be := getDataETA s
  { id := s.id
    completed := s.completed
    aborted := s.aborted
    total := s.total
    current := s.current
    startTime := s.startTime
    timeElapsed := now - s.startTime
    rollCurrent := be.2
    rollStartTime := be.1 }

/-- From src/progress.go: `widthSync` holds one `Listen` and one `Result`
channel per decorator column.  The model keeps one entry per column:
`Listen` entries are the column channels themselves (only their count is
read by `draw`), `Result` entries the max width each column's rendezvous
delivers this frame. -/
structure widthSync where
  Listen : List ℤ
  Result : List ℤ

/-- From src/bar.go: the spinner glyph cycle of `getSpinner`. -/
def spinnerChars : List Char := ['-', '\\', '|', '/']

/-- One call of the `getSpinner` closure: from stored index `idx`, reset to
-1 when the repeat point is reached, advance, and yield the glyph. -/
def spinnerNext (idx : ℕ) : ℕ × Char :=
  let next := if idx = 3 then 0 else idx + 1
  (next, spinnerChars.getD next ' ')

/-- From src/bar.go: `draw(s *state, termWidth int, prependWs, appendWs
*widthSync) []byte`, at the rune level.  `runeWidth` stands for
go-runewidth's `StringWidth` (per-rune display width, an external table);
`utf8.RuneCount` of a block is its rune count, i.e. the model list length. -/
def draw (runeWidth : Char → ℕ) (now : ℤ) (s : state) (termWidth : ℤ)
    (prependWs appendWs : widthSync) : List Char :=
  if s.prependFuncs.length ≠ prependWs.Listen.length
      ∨ s.appendFuncs.length ≠ appendWs.Listen.length then []
  else
    let termWidth := if termWidth ≤ 0 then s.width else termWidth
    let stat := newStatistics now s
    let prependBlock := String.join
      (s.prependFuncs.enum.map (fun fi => fi.2 stat (prependWs.Result.getD fi.1 0)))
    let appendBlock := String.join
      (s.appendFuncs.enum.map (fun fi => fi.2 stat (appendWs.Result.getD fi.1 0)))
    let prependCount : ℤ := prependBlock.length
    let appendCount : ℤ := appendBlock.length
    let prependCount := if s.trimLeftSpace then prependCount else prependCount + 1
    let leftSpace : List Char := if s.trimLeftSpace then [] else [' ']
    let appendCount := if s.trimRightSpace then appendCount else appendCount + 1
    let rightSpace : List Char := if s.trimRightSpace then [] else [' ']
    let barBlock :=
      match s.simpleSpinner with
      | some idx => [s.format.getD rLeft ' ', (spinnerNext idx).2, s.format.getD rRight ' ']
      | none =>
        let bb := fillBar s.total s.current s.width s.format s.fmtFill s.refill
        let barCount : ℤ := (bb.map (fun c => (runeWidth c : ℤ))).sum
        let totalCount := prependCount + barCount + appendCount
        if totalCount > termWidth then
          fillBar s.total s.current (termWidth - prependCount - appendCount)
            s.format s.fmtFill s.refill
        else bb
    prependBlock.toList ++ leftSpace ++ barBlock ++ rightSpace ++ appendBlock.toList

/-- From src/bar.go `Bar.render`: the row the renderer goroutine emits for a
snapshot is `draw(...)` with a newline appended. -/
def renderRow (runeWidth : Char → ℕ) (now : ℤ) (s : state) (termWidth : ℤ)
    (prependWs appendWs : widthSync) : List Char :=
  draw runeWidth now s termWidth prependWs appendWs ++ ['\n']

/-- From src/progress.go:
```
func fanIn(skip int, inputs ...<-chan []byte) <-chan []byte {
    ...
    for _, input := range inputs {
        data := <-input
        if skip > 1 { skip--; continue }
        ch <- data
    }
    ...
}
```
Each input channel yields exactly one row, in bar order, so the channel
plumbing reduces to a list traversal. -/
def fanIn (skip : ℤ) : List α → List α
  | [] => []
  | x :: xs => if skip > 1 then fanIn (skip - 1) xs else x :: fanIn skip xs

/-- From src/progress.go `server` (tick branch): the skip count for a frame,
from the bar count and the terminal height:
```
if th < 4 { th = 24 }
...
skip := 0
th -= 3
if numBars > th { skip = numBars - th }
``` -/
def serverSkip (numBars th : ℤ) : ℤ :=
  let th := if th < 4 then 24 else th
  let th := th - 3
  if numBars > th then numBars - th else 0

/-- The channel configuration of a `Bar` handle, as seen by a sender doing
```
select { case b.ops <- op: ... case <-b.quit: return }
```
`serverAlive` = a server goroutine is receiving on `ops` (true for a bar
made by `newBar`, false once the server returned, and false for the
zero-value `new(Bar)` whose channels are nil); `quitClosed` = the `quit`
channel has been closed (a closed channel is always ready to receive; a nil
channel is never ready; a send with no receiver is never ready). -/
structure BarChans where
  serverAlive : Bool
  quitClosed : Bool

/-- Outcome of offering an operation to a bar's inbox. -/
inductive SendOutcome where
  | delivered
  | dropped
  | blocked
deriving DecidableEq

/-- Go select semantics for the sender side of `Bar.Incr` (and every other
op-sending method): the send is taken when a receiver exists; otherwise the
quit case is taken when `quit` is closed; otherwise no case can ever
proceed and the select blocks forever. -/
def incrSendOutcome (b : BarChans) : SendOutcome :=
  if b.serverAlive then .delivered
  else if b.quitClosed then .dropped
  else .blocked

/-- A dead bar: its server observed `quit` closed and returned, so `quit`
is closed and nothing receives on `ops`. -/
def deadBar : BarChans := ⟨false, true⟩

/-- From src/progress.go `AddBar`: after `Stop()` the `p.quit` case is taken
and `AddBar` returns `new(Bar)` — the zero value, whose `quit`, `done` and
`ops` channels are all nil and for which no server goroutine exists. -/
def barAfterStop : BarChans := ⟨false, false⟩

/-- The invariant claim C1 asserts for a bar with positive total: `current`
stays within `[0, total]`. -/
def barInv (s : state) : Prop := 0 ≤ s.current ∧ s.current ≤ s.total ∧ 0 < s.total

end mpb

lemma f64trunc_of_nonneg {q : ℚ} (h : 0 ≤ q) : f64trunc q = ⌊q⌋ := if_pos h

lemma f64trunc_intCast_div (a m : ℤ) (ha : 0 ≤ a) (hm : 0 < m) :
    f64trunc ((a : ℚ) / (m : ℚ)) = a.tdiv m := by
  have hm0 : (0:ℚ) < (m : ℚ) := by exact_mod_cast hm
  rw [f64trunc_of_nonneg (div_nonneg (by exact_mod_cast ha) hm0.le)]
  have hcast : (m : ℚ) = ((m.toNat : ℕ) : ℚ) := by
    exact_mod_cast (Int.toNat_of_nonneg hm.le).symm
  rw [hcast, Rat.floor_intCast_div_natCast, Int.tdiv_eq_ediv ha hm.le]
  congr 1
  omega

lemma durRound_nonneg (d m : ℤ) (hd : 0 ≤ d) : 0 ≤ decor.durRound d m := by
  unfold decor.durRound
  rcases le_or_lt m 0 with hm | hm
  · rw [if_pos hm]; exact hd
  · rw [if_neg (not_le.mpr hm)]
    have hr0 : 0 ≤ d.tmod m := Int.tmod_nonneg m hd
    have hrd : d.tmod m ≤ d := by
      have hq : 0 ≤ d.tdiv m := Int.tdiv_nonneg hd hm.le
      have hdef := Int.tmod_def d m
      nlinarith
    have hrm : d.tmod m < m := Int.tmod_lt_of_pos d hm
    dsimp only
    rw [if_neg (not_lt.mpr hd)]
    split_ifs with h2 <;> omega

lemma durRound_dvd (d m : ℤ) (hm : 0 < m) : m ∣ decor.durRound d m := by
  unfold decor.durRound
  rw [if_neg (not_le.mpr hm)]
  have hdef := Int.tmod_def d m
  obtain ⟨k, hk⟩ : m ∣ d - d.tmod m := ⟨d.tdiv m, by linarith⟩
  dsimp only
  split_ifs with h1 h2 h3
  · exact ⟨k, by linarith⟩
  · exact ⟨k - 1, by rw [mul_sub, mul_one]; linarith⟩
  · exact ⟨k, by linarith⟩
  · exact ⟨k + 1, by rw [mul_add, mul_one]; linarith⟩


/-- Claim C2 (corrected): in `CalcPercentage(total, current, width, fill)`
with `0 < current < total` and `0 ≤ width`, where `num = width*current/total`:
with `fill = 0` the completed cell count is `round(num)` = `⌊num + 1/2⌋`
(nearest integer, half up); with `fill > 0` the completed cell count is
`⌊num⌋` (not `round(num)`) and the fractional glyph index is
`⌊(num − ⌊num⌋) * fill⌋`. -/
theorem c2_calcPercentage_amended (total current width fill : ℤ)
    (hc : 0 < current) (hct : current < total) (hw : 0 ≤ width) :
    (fill = 0 → decor.CalcPercentage total current width fill =
      (⌊(width : ℚ) * current / total + 1/2⌋, 0)) ∧
    (0 < fill → decor.CalcPercentage total current width fill =
      (⌊(width : ℚ) * current / total⌋,
       ⌊((width : ℚ) * current / total - (⌊(width : ℚ) * current / total⌋ : ℚ)) * fill⌋)) := by
  have ht : (0:ℤ) < total := hc.trans hct
  have hguard : ¬ (total = 0 ∨ current > total) := by
    push_neg
    exact ⟨ht.ne', hct.le⟩
  have hnum : (0:ℚ) ≤ (width : ℚ) * current / total := by
    apply div_nonneg
    · exact mul_nonneg (by exact_mod_cast hw) (by exact_mod_cast hc.le)
    · exact_mod_cast ht.le
  set num : ℚ := (width : ℚ) * current / total with hnumdef
  have hfloor : (0:ℚ) ≤ num - (⌊num⌋ : ℚ) := by
    have := Int.floor_le num
    linarith
  constructor
  · intro hfill
    subst hfill
    rw [decor.CalcPercentage, if_neg hguard]
    simp only [lt_irrefl, if_false]
    rw [decor.round, div_one, mul_one]
    rw [f64trunc_of_nonneg (q := num + 1/2) (by linarith)]
    have hfl : (0:ℚ) ≤ ((⌊num + 1/2⌋ : ℤ) : ℚ) := by
      have : (0:ℤ) ≤ ⌊num + 1/2⌋ := Int.floor_nonneg.mpr (by linarith)
      exact_mod_cast this
    rw [f64trunc_of_nonneg hfl, Int.floor_intCast]
  · intro hfill
    have hfr : ((fill:ℚ)) ≠ 0 := by exact_mod_cast hfill.ne'
    rw [decor.CalcPercentage, if_neg hguard, if_pos (by exact_mod_cast hfill)]
    simp only [← hnumdef, f64trunc_of_nonneg hnum]
    have hdiv : (num - (⌊num⌋ : ℚ)) / (1 / (fill : ℚ)) = (num - (⌊num⌋ : ℚ)) * fill := by
      field_simp
    rw [hdiv, f64trunc_of_nonneg (by positivity)]

/-- Claim C2 counterexample: at `total = 4, current = 1, width = 10,
fill = 8` the float value is `num = 2.5` (exact in binary floating point,
so the rational model matches the Go code); the code returns completed
count `int(num) = 2`, while the claim's `round(num)` (half up) is `3`. -/
theorem c2_counterexample :
    (decor.CalcPercentage 4 1 10 8).1 ≠ ⌊(10 * 1 / 4 : ℚ) + 1/2⌋ := by
  have h : decor.CalcPercentage 4 1 10 8 = (2, 4) := by
    norm_num [decor.CalcPercentage, f64trunc]
  rw [h]
  norm_num

/-- Claim C2 witness: the amended theorem applied at concrete inputs; the
pair `(4, 1, 10, 0)` lands in the rounded branch (`2.5` rounds to `3`) and
`(4, 1, 10, 8)` in the floor branch (`(2, 4)`). -/
theorem c2_witness :
    decor.CalcPercentage 4 1 10 0 = (3, 0) ∧ decor.CalcPercentage 4 1 10 8 = (2, 4) := by
  have h0 := c2_calcPercentage_amended 4 1 10 0 (by norm_num) (by norm_num) (by norm_num)
  have h8 := c2_calcPercentage_amended 4 1 10 8 (by norm_num) (by norm_num) (by norm_num)
  refine ⟨?_, ?_⟩
  · rw [h0.1 rfl]
    norm_num
  · rw [h8.2 (by norm_num)]
    norm_num


namespace mpb

lemma updateETA_proj (now a : ℤ) (s : state) :
    (updateETA now a s).total = s.total ∧ (updateETA now a s).current = s.current ∧
    (updateETA now a s).completed = s.completed ∧ (updateETA now a s).started = s.started := by
  unfold updateETA
  dsimp only
  split_ifs <;> exact ⟨rfl, rfl, rfl, rfl⟩

@[simp] lemma updateETA_total (now a : ℤ) (s : state) :
    (updateETA now a s).total = s.total := (updateETA_proj now a s).1

@[simp] lemma updateETA_current (now a : ℤ) (s : state) :
    (updateETA now a s).current = s.current := (updateETA_proj now a s).2.1

@[simp] lemma updateETA_completed (now a : ℤ) (s : state) :
    (updateETA now a s).completed = s.completed := (updateETA_proj now a s).2.2.1

@[simp] lemma updateETA_started (now a : ℤ) (s : state) :
    (updateETA now a s).started = s.started := (updateETA_proj now a s).2.2.2

@[simp] lemma initETA_total (s : state) : (initETA s).total = s.total := rfl

@[simp] lemma initETA_current (s : state) : (initETA s).current = s.current := rfl

@[simp] lemma initETA_completed (s : state) : (initETA s).completed = s.completed := rfl

@[simp] lemma initETA_startTime (s : state) : (initETA s).startTime = s.startTime := rfl

@[simp] lemma initETA_started (s : state) : (initETA s).started = s.started := rfl

lemma incrOp_spec (now n : ℤ) (s : state) :
    ((s.total > 0 ∧ s.current + n ≥ s.total) →
      (incrOp now n s).current = s.total ∧ (incrOp now n s).completed = true) ∧
    (¬(s.total > 0 ∧ s.current + n ≥ s.total) → (incrOp now n s).current = s.current + n) ∧
    (incrOp now n s).total = s.total := by
  unfold incrOp
  dsimp only
  split_ifs with h1 h2 h2 <;>
    simp only [updateETA_total, updateETA_current, updateETA_completed, updateETA_started,
      initETA_total, initETA_current] at h2 ⊢ <;>
    refine ⟨fun hc => ?_, fun hc => ?_, ?_⟩ <;>
    trivial

lemma Incr_of_neg (now n : ℤ) (s : state) (hn : n < 0) : Incr now n s = s := by
  unfold Incr IncrSend
  rw [if_pos hn]

lemma Incr_of_nonneg (now n : ℤ) (s : state) (hn : ¬ n < 0) :
    Incr now n s = incrOp now n s := by
  unfold Incr IncrSend
  rw [if_neg hn]

lemma applyOp_pres (op : BarOp) (s : state) (h : barInv s) :
    barInv (applyOp op s) ∧ (applyOp op s).total = s.total := by
  obtain ⟨h0, h1, h2⟩ := h
  cases op with
  | incr now n =>
    have happ : applyOp (.incr now n) s = Incr now n s := rfl
    rw [happ]
    by_cases hn : n < 0
    · rw [Incr_of_neg now n s hn]
      exact ⟨⟨h0, h1, h2⟩, rfl⟩
    · rw [Incr_of_nonneg now n s hn]
      push_neg at hn
      have hs := incrOp_spec now n s
      by_cases hc : s.total > 0 ∧ s.current + n ≥ s.total
      · obtain ⟨hcur, _⟩ := hs.1 hc
        refine ⟨⟨?_, ?_, ?_⟩, hs.2.2⟩ <;> simp only [hcur, hs.2.2] <;> omega
      · have hcur := hs.2.1 hc
        refine ⟨⟨?_, ?_, ?_⟩, hs.2.2⟩ <;> simp only [hcur, hs.2.2] <;> omega
  | resumeFill r till =>
    have happ : applyOp (.resumeFill r till) s = ResumeFill r till s := rfl
    rw [happ]
    unfold ResumeFill
    split_ifs <;> exact ⟨⟨h0, h1, h2⟩, rfl⟩
  | removeAllPrependers => exact ⟨⟨h0, h1, h2⟩, rfl⟩
  | removeAllAppenders => exact ⟨⟨h0, h1, h2⟩, rfl⟩

lemma runOps_pres (ops : List BarOp) (s : state) (h : barInv s) :
    barInv (runOps ops s) ∧ (runOps ops s).total = s.total := by
  induction ops generalizing s with
  | nil => exact ⟨h, rfl⟩
  | cons op ops ih =>
    have hstep := applyOp_pres op s h
    have := ih (applyOp op s) hstep.1
    exact ⟨this.1, this.2.trans hstep.2⟩

end mpb

namespace mpb

lemma updateETA_startTime (now a : ℤ) (s : state) :
    (updateETA now a s).startTime = s.startTime := by
  unfold updateETA
  dsimp only
  split_ifs <;> rfl

lemma updateETA_rollTime0 (now a : ℤ) (s : state) (hlen : s.rollTime.length = 8)
    (h : s.rollTime.getD 0 0 = now) : (updateETA now a s).rollTime.getD 0 0 = now := by
  unfold updateETA
  dsimp only
  split_ifs with h1 h2
  · exact h
  · by_cases hoff : (s.rollOff + 1) % rollAveSlots = 0
    · rw [hoff]
      rw [List.getD_eq_getElem?_getD, List.getElem?_set_self (by omega), Option.getD_some]
    · rw [List.getD_eq_getElem?_getD, List.getElem?_set_ne hoff,
          ← List.getD_eq_getElem?_getD]
      exact h
  · exact h

/-- Claim C1: for every bar created with `total > 0`, `current` starts at 0
and `0 ≤ current ≤ total` holds after every sequence of producer operations;
moreover `Incr(n)` with `n ≥ 0` adds `n` to `current`, clamping to `total`
and marking `completed` whenever `current + n ≥ total`. -/
theorem c1_current_bounds (total : ℤ) (htotal : 0 < total) :
    (newBar total).current = 0 ∧
    (∀ ops : List BarOp,
      0 ≤ (runOps ops (newBar total)).current ∧
      (runOps ops (newBar total)).current ≤ total ∧
      (runOps ops (newBar total)).total = total) ∧
    (∀ (now n : ℤ) (s : state), 0 ≤ n → 0 < s.total →
      (s.total ≤ s.current + n →
        (Incr now n s).current = s.total ∧ (Incr now n s).completed = true) ∧
      (s.current + n < s.total → (Incr now n s).current = s.current + n)) := by
  have hnb : newBar total = { total := total, etaAlpha := 1/4 } := by
    unfold newBar
    rw [if_neg (not_le.mpr htotal)]
  refine ⟨by rw [hnb], fun ops => ?_, fun now n s hn hs => ?_⟩
  · have hinv : barInv (newBar total) := by
      rw [hnb]
      exact ⟨le_refl 0, htotal.le, htotal⟩
    obtain ⟨⟨i0, i1, _⟩, itot⟩ := runOps_pres ops (newBar total) hinv
    have htot : (newBar total).total = total := by rw [hnb]
    rw [htot] at itot
    exact ⟨i0, by rw [itot] at i1; exact i1, itot⟩
  · have hspec := incrOp_spec now n s
    rw [Incr_of_nonneg now n s (by omega)]
    constructor
    · intro hge
      exact hspec.1 ⟨hs, hge⟩
    · intro hlt
      exact hspec.2.1 (by omega)

/-- Claim C1 witness: the theorem applied at `total = 10` with the operation
sequence `Incr(3); Incr(20)`, whose final current is clamped at 10. -/
theorem c1_witness :
    (newBar 10).current = 0 ∧
    (runOps [BarOp.incr 0 3, BarOp.incr 1 20] (newBar 10)).current = 10 ∧
    0 ≤ (runOps [BarOp.incr 0 3, BarOp.incr 1 20] (newBar 10)).current ∧
    (runOps [BarOp.incr 0 3, BarOp.incr 1 20] (newBar 10)).current ≤ 10 := by
  have h := c1_current_bounds 10 (by norm_num)
  have h2 := h.2.1 [BarOp.incr 0 3, BarOp.incr 1 20]
  exact ⟨h.1, by decide, h2.1, h2.2.1⟩

/-- Claim C3: for a determinate bar (`total > 0`) with `current ≥ total` and
`width ≥ 2`, `fillBar` produces a row of exactly `width` copies of the
`empty` glyph — the positions of the left and right delimiters included —
with no delimiter glyphs. -/
theorem c3_fillBar_full (total current width : ℤ) (fmtBytes fmtFill : List Char)
    (rf : Option refill) (ht : 0 < total) (hc : total ≤ current) (hw : 2 ≤ width) :
    fillBar total current width fmtBytes fmtFill rf =
      List.replicate width.toNat (fmtBytes.getD rEmpty ' ') := by
  unfold fillBar
  rw [if_neg (by omega : ¬(width < 2 ∨ total ≤ 0))]
  dsimp only
  rw [if_pos (by omega : current ≥ total)]
  congr 1
  omega

/-- Claim C3 witness: the theorem applied at `total = current = 10`,
`width = 12` with the default ASCII format: twelve spaces. -/
theorem c3_witness :
    fillBar 10 10 12 ['[', '=', '>', ' ', ']'] [] none = List.replicate 12 ' ' := by
  rw [c3_fillBar_full 10 10 12 ['[', '=', '>', ' ', ']'] [] none
    (by norm_num) (by norm_num) (by norm_num)]
  decide

/-- Claim C4 counterexample: `Update()` — which is `Incr(0)`, not a positive
increment — already marks `started` on a fresh bar, so `started` is not
marked exactly on the first positive increment. -/
theorem c4_counterexample :
    (Update 5 (newBar 10)).started = true ∧ (newBar 10).started = false := by
  decide

/-- Claim C4 (corrected): `start_time` is set to now, rolling slot 0's start
is initialized to `start_time`, and `started` is marked on the first
`Incr(n)` with `n ≥ 0` — including `Update() = Incr(0)` — that arrives while
`current = 0` and `started` is unset (not only on the first positive
increment); a started bar's `start_time` is never touched again; and
`Update() = Incr(0)` does not move `current` (whenever `current ≤ total` or
the bar is indeterminate). -/
theorem c4_amended (now n : ℤ) (s : state) :
    (0 ≤ n → s.current = 0 → s.started = false → s.rollTime.length = 8 →
      (Incr now n s).started = true ∧
      (Incr now n s).startTime = now ∧
      (Incr now n s).rollTime.getD 0 0 = now) ∧
    (s.started = true → (Incr now n s).startTime = s.startTime ∧ (Incr now n s).started = true) ∧
    (Update now s = Incr now 0 s) ∧
    (s.total ≤ 0 ∨ s.current ≤ s.total → (Incr now 0 s).current = s.current) := by
  refine ⟨fun hn hcur hst hlen => ?_, fun hst => ?_, rfl, fun hb => ?_⟩
  · rw [Incr_of_nonneg now n s (by omega)]
    unfold incrOp
    dsimp only
    have hget : ((initETA { s with startTime := now }).rollTime).getD 0 0 = now := by
      unfold initETA
      dsimp only
      rw [List.getD_eq_getElem?_getD,
          List.getElem?_set_self (show 0 < ({ s with startTime := now }).rollTime.length by
            simpa using (by omega : 0 < s.rollTime.length)),
          Option.getD_some]
    have hlen2 :
        ({ initETA { s with startTime := now } with started := true }).rollTime.length = 8 := by
      show ((initETA { s with startTime := now }).rollTime).length = 8
      unfold initETA
      simpa using hlen
    split_ifs with hinit hcl hcl
    · exact ⟨by simp only [updateETA_started], by simp only [updateETA_startTime, initETA_startTime],
        updateETA_rollTime0 now n _ hlen2 hget⟩
    · exact ⟨by simp only [updateETA_started], by simp only [updateETA_startTime, initETA_startTime],
        updateETA_rollTime0 now n _ hlen2 hget⟩
    · exact absurd ⟨hcur, hst⟩ hinit
    · exact absurd ⟨hcur, hst⟩ hinit
  · by_cases hn : n < 0
    · rw [Incr_of_neg now n s hn]
      exact ⟨rfl, hst⟩
    · rw [Incr_of_nonneg now n s hn]
      unfold incrOp
      dsimp only
      split_ifs with hinit hcl hcl
      · rw [hst] at hinit
        exact absurd hinit.2 (by simp)
      · rw [hst] at hinit
        exact absurd hinit.2 (by simp)
      · exact ⟨updateETA_startTime now n s, by rw [updateETA_started]; exact hst⟩
      · exact ⟨updateETA_startTime now n s, by rw [updateETA_started]; exact hst⟩
  · have hspec := incrOp_spec now 0 s
    rw [Incr_of_nonneg now 0 s (by omega)]
    by_cases hcl : s.total > 0 ∧ s.current + 0 ≥ s.total
    · have := (hspec.1 hcl).1
      omega
    · have := hspec.2.1 hcl
      omega

/-- Claim C4 witness: the amended theorem applied to a fresh `total = 10`
bar receiving `Incr(1)` at instant 5. -/
theorem c4_witness :
    (Incr 5 1 (newBar 10)).started = true ∧ (Incr 5 1 (newBar 10)).startTime = 5 ∧
    (Incr 5 1 (newBar 10)).rollTime.getD 0 0 = 5 :=
  (c4_amended 5 1 (newBar 10)).1 (by norm_num) (by decide) (by decide) (by decide)

/-- Claim C10: for every `n < 0`, `Bar.Incr(n)` sends no operation to the
bar's inbox and leaves the state — `current`, `started`, `completed`,
`start_time`, the rolling window — completely unchanged. -/
theorem c10_negative_incr_noop (n : ℤ) (hn : n < 0) :
    IncrSend n = none ∧ ∀ (now : ℤ) (s : state), Incr now n s = s := by
  refine ⟨?_, fun now s => Incr_of_neg now n s hn⟩
  unfold IncrSend
  rw [if_pos hn]

/-- Claim C10 witness: the theorem applied at `n = -1` on a fresh bar. -/
theorem c10_witness :
    IncrSend (-1) = none ∧ Incr 3 (-1) (newBar 10) = newBar 10 := by
  have h := c10_negative_incr_noop (-1) (by norm_num)
  exact ⟨h.1, h.2 3 (newBar 10)⟩

lemma fanIn_eq_drop {α : Type} (skip : ℤ) (xs : List α) :
    fanIn skip xs = xs.drop (skip - 1).toNat := by
  induction xs generalizing skip with
  | nil => simp [fanIn]
  | cons x xs ih =>
    unfold fanIn
    split_ifs with h
    · rw [ih (skip - 1)]
      have h1 : (skip - 1).toNat = (skip - 1 - 1).toNat + 1 := by omega
      rw [h1, List.drop_succ_cons]
    · have h0 : (skip - 1).toNat = 0 := by omega
      rw [ih skip, h0, List.drop_zero, List.drop_zero]

/-- Claim C7 counterexample: with 5 bars and terminal height 6 the skip
count is `5 - (6 - 3) = 2`, but the emission keeps the last four rows — the
claim's "skip exactly the first `N - visible_rows` rows" (which would keep
the last three) fails. -/
theorem c7_counterexample :
    fanIn (serverSkip 5 6) [(0:ℤ), 1, 2, 3, 4] = [1, 2, 3, 4] ∧
    fanIn (serverSkip 5 6) [(0:ℤ), 1, 2, 3, 4] ≠ List.drop 2 [(0:ℤ), 1, 2, 3, 4] := by
  decide

/-- Claim C7 (corrected): when `N` bars exceed `visible_rows = rows - 3`,
the `skip > 1` gate in `fanIn` drops only the first `N - visible_rows - 1`
rows, so the last `visible_rows + 1` bar rows are the ones written to the
terminal. -/
theorem c7_amended {α : Type} (xs : List α) (numBars th : ℤ)
    (hth : 4 ≤ th) (hlen : (xs.length : ℤ) = numBars) (hover : th - 3 < numBars) :
    fanIn (serverSkip numBars th) xs = xs.drop (numBars - (th - 3) - 1).toNat ∧
    ((fanIn (serverSkip numBars th) xs).length : ℤ) = (th - 3) + 1 := by
  have hskip : serverSkip numBars th = numBars - (th - 3) := by
    unfold serverSkip
    dsimp only
    rw [if_neg (show ¬ th < 4 by omega)]
    rw [if_pos (show numBars > th - 3 by omega)]
  rw [hskip, fanIn_eq_drop]
  refine ⟨rfl, ?_⟩
  rw [List.length_drop]
  omega

/-- Claim C7 witness: the amended theorem applied to five rows and terminal
height 6: one row is dropped, four are kept. -/
theorem c7_witness :
    fanIn (serverSkip 5 6) [(10:ℤ), 20, 30, 40, 50] = [20, 30, 40, 50] := by
  have h := (c7_amended [(10:ℤ), 20, 30, 40, 50] 5 6 (by norm_num) (by decide) (by norm_num)).1
  rw [h]
  decide

/-- Claim C8: an operation offered to a dead bar (whose `quit` gate is
closed) is silently dropped, but an operation offered to the zero-value
`Bar` that `AddBar` returns after `Stop()` — nil channels, no server — can
never proceed: the select blocks forever, contradicting the claim that all
of the no-op bar's methods are safe to call. -/
theorem c8_dead_bar_send :
    incrSendOutcome deadBar = SendOutcome.dropped ∧
    incrSendOutcome barAfterStop = SendOutcome.blocked := by
  decide

/-- Claim C9: when a bar's prepend or append decorator count differs from
the width-sync column count built from the first bar's decorator counts,
`draw` returns an empty byte slice and the bar's row for the frame is a
bare newline — a blank line, not a rendered row or an error. -/
theorem c9_mismatch_blank (runeWidth : Char → ℕ) (now : ℤ) (s : state) (termWidth : ℤ)
    (pws aws : widthSync)
    (h : s.prependFuncs.length ≠ pws.Listen.length ∨ s.appendFuncs.length ≠ aws.Listen.length) :
    draw runeWidth now s termWidth pws aws = [] ∧
    renderRow runeWidth now s termWidth pws aws = ['\n'] := by
  have hd : draw runeWidth now s termWidth pws aws = [] := by
    unfold draw
    rw [if_pos h]
  refine ⟨hd, ?_⟩
  unfold renderRow
  rw [hd]
  rfl

/-- Claim C9 witness: the theorem applied to a decorator-less bar paired
with a one-column prepend width-sync. -/
theorem c9_witness :
    renderRow (fun _ => 1) 0 (newBar 10) 80 ⟨[0], [0]⟩ ⟨[], []⟩ = ['\n'] :=
  (c9_mismatch_blank (fun _ => 1) 0 (newBar 10) 80 ⟨[0], [0]⟩ ⟨[], []⟩ (by left; decide)).2

end mpb

namespace decor

lemma timeSecond_pos : (0:ℤ) < timeSecond := by
  norm_num [timeSecond, timeMillisecond]

lemma timeMinute_pos : (0:ℤ) < timeMinute := by
  norm_num [timeMinute, timeSecond, timeMillisecond]

lemma timeHour_pos : (0:ℤ) < timeHour := by
  norm_num [timeHour, timeMinute, timeSecond, timeMillisecond]

/-- Claim C5: `ETAString` selects its output by the first matching bucket,
in order: `current = total` gives the elapsed time through the
small-duration formatter; `roll_current = 0` gives `"∞:??"`; otherwise,
with the ETA duration `(total − current) / (roll_current /
elapsed_since_roll_start)` (truncated to whole seconds): above 999 days
`"∞"`, above 36 hours `"~Nd"`, above 59 minutes `"~Nh"`, below 3 seconds
`"~2s"`, and otherwise `"M:SS"`. -/
theorem c5_etastring_buckets (now : ℤ) (s : Statistics) :
    (s.current = s.total → ETAString now s = smallDurationString s.timeElapsed) ∧
    (s.current ≠ s.total → s.rollCurrent = 0 → ETAString now s = "∞:??") ∧
    (s.current ≠ s.total → s.rollCurrent ≠ 0 →
      (999 * 24 * timeHour < Eta now s → ETAString now s = "∞") ∧
      (Eta now s ≤ 999 * 24 * timeHour → 36 * timeHour < Eta now s →
        ETAString now s =
          "~" ++ toString ((durRound (Eta now s) (timeHour * 24)).tdiv (timeHour * 24)) ++ "d") ∧
      (Eta now s ≤ 36 * timeHour → 59 * timeMinute < Eta now s →
        ETAString now s =
          "~" ++ toString ((durRound (Eta now s) timeHour).tdiv timeHour) ++ "h") ∧
      (Eta now s < 3 * timeSecond → ETAString now s = "~2s") ∧
      (3 * timeSecond ≤ Eta now s → Eta now s ≤ 59 * timeMinute →
        ETAString now s =
          toString ((Eta now s).tdiv timeMinute) ++ ":" ++
            sprint02d (((Eta now s).tdiv timeSecond).tmod 60))) := by
  have hsec : (0:ℚ) < (timeSecond : ℚ) := by exact_mod_cast timeSecond_pos
  have hmin : (0:ℚ) < (timeMinute : ℚ) := by exact_mod_cast timeMinute_pos
  have hhour : (0:ℚ) < (timeHour : ℚ) := by exact_mod_cast timeHour_pos
  unfold ETAString
  dsimp only
  refine ⟨fun hcur => ?_, fun hcur hroll => ?_, fun hcur hroll => ?_⟩
  · rw [if_pos hcur]
  · rw [if_neg hcur, if_pos hroll]
  · rw [if_neg hcur, if_neg hroll]
    set dur := Eta now s with hdur
    refine ⟨fun h1 => ?_, fun h1 h2 => ?_, fun h1 h2 => ?_, fun h1 => ?_, fun h1 h2 => ?_⟩
    · rw [if_pos (show (dur:ℚ) / (timeHour:ℚ) > 999 * 24 by
        rw [gt_iff_lt, lt_div_iff₀ hhour]
        exact_mod_cast h1)]
    · rw [if_neg (show ¬ (dur:ℚ) / (timeHour:ℚ) > 999 * 24 by
        rw [gt_iff_lt, not_lt, div_le_iff₀ hhour]
        exact_mod_cast h1)]
      rw [if_pos (show (dur:ℚ) / (timeHour:ℚ) > 36 by
        rw [gt_iff_lt, lt_div_iff₀ hhour]
        exact_mod_cast h2)]
      have hnn : 0 ≤ durRound dur (timeHour * 24) :=
        durRound_nonneg dur (timeHour * 24)
          (le_of_lt (lt_trans (by norm_num [timeHour, timeMinute, timeSecond, timeMillisecond]) h2))
      have hx : f64trunc (((durRound dur (timeHour * 24) : ℤ) : ℚ) / (timeHour:ℚ) / 24) =
          (durRound dur (timeHour * 24)).tdiv (timeHour * 24) := by
        rw [div_div, show ((timeHour:ℚ) * 24) = (((timeHour * 24 : ℤ)) : ℚ) by push_cast; ring]
        exact f64trunc_intCast_div _ _ hnn (by norm_num [timeHour, timeMinute, timeSecond, timeMillisecond])
      rw [hx]
    · rw [if_neg (show ¬ (dur:ℚ) / (timeHour:ℚ) > 999 * 24 by
        rw [gt_iff_lt, not_lt, div_le_iff₀ hhour]
        have : dur ≤ 999 * 24 * timeHour := le_trans h1 (by nlinarith [timeHour_pos, timeMinute_pos])
        exact_mod_cast this)]
      rw [if_neg (show ¬ (dur:ℚ) / (timeHour:ℚ) > 36 by
        rw [gt_iff_lt, not_lt, div_le_iff₀ hhour]
        exact_mod_cast h1)]
      rw [if_pos (show (dur:ℚ) / (timeMinute:ℚ) > 59 by
        rw [gt_iff_lt, lt_div_iff₀ hmin]
        exact_mod_cast h2)]
      have hnn : 0 ≤ durRound dur timeHour :=
        durRound_nonneg dur timeHour (le_of_lt (lt_trans (by norm_num [timeHour, timeMinute, timeSecond, timeMillisecond]) h2))
      rw [f64trunc_intCast_div _ _ hnn timeHour_pos]
    · have hdpos : dur < 3 * timeSecond := h1
      have hso : (3:ℤ) * timeSecond ≤ 59 * timeMinute := by
        norm_num [timeMinute, timeSecond, timeMillisecond]
      have hho : (59:ℤ) * timeMinute ≤ 36 * timeHour := by
        norm_num [timeHour, timeMinute, timeSecond, timeMillisecond]
      have hdo : (36:ℤ) * timeHour ≤ 999 * 24 * timeHour := by
        nlinarith [timeHour_pos]
      rw [if_neg (show ¬ (dur:ℚ) / (timeHour:ℚ) > 999 * 24 by
        rw [gt_iff_lt, not_lt, div_le_iff₀ hhour]
        have : dur ≤ 999 * 24 * timeHour := by omega
        exact_mod_cast this)]
      rw [if_neg (show ¬ (dur:ℚ) / (timeHour:ℚ) > 36 by
        rw [gt_iff_lt, not_lt, div_le_iff₀ hhour]
        have : dur ≤ 36 * timeHour := by omega
        exact_mod_cast this)]
      rw [if_neg (show ¬ (dur:ℚ) / (timeMinute:ℚ) > 59 by
        rw [gt_iff_lt, not_lt, div_le_iff₀ hmin]
        have : dur ≤ 59 * timeMinute := by omega
        exact_mod_cast this)]
      rw [if_pos (show (dur:ℚ) / (timeSecond:ℚ) < 3 by
        rw [div_lt_iff₀ hsec]
        exact_mod_cast h1)]
    · have hdnn : (0:ℤ) ≤ dur := le_trans (by norm_num [timeHour, timeMinute, timeSecond, timeMillisecond]) h1
      rw [if_neg (show ¬ (dur:ℚ) / (timeHour:ℚ) > 999 * 24 by
        rw [gt_iff_lt, not_lt, div_le_iff₀ hhour]
        have hho : (59:ℤ) * timeMinute ≤ 999 * 24 * timeHour := by
          norm_num [timeHour, timeMinute, timeSecond, timeMillisecond]
        have : dur ≤ 999 * 24 * timeHour := by omega
        exact_mod_cast this)]
      rw [if_neg (show ¬ (dur:ℚ) / (timeHour:ℚ) > 36 by
        rw [gt_iff_lt, not_lt, div_le_iff₀ hhour]
        have hho : (59:ℤ) * timeMinute ≤ 36 * timeHour := by
          norm_num [timeHour, timeMinute, timeSecond, timeMillisecond]
        have : dur ≤ 36 * timeHour := by omega
        exact_mod_cast this)]
      rw [if_neg (show ¬ (dur:ℚ) / (timeMinute:ℚ) > 59 by
        rw [gt_iff_lt, not_lt, div_le_iff₀ hmin]
        exact_mod_cast h2)]
      rw [if_neg (show ¬ (dur:ℚ) / (timeSecond:ℚ) < 3 by
        rw [not_lt, le_div_iff₀ hsec]
        exact_mod_cast h1)]
      rw [f64trunc_intCast_div dur timeMinute hdnn timeMinute_pos,
          f64trunc_intCast_div dur timeSecond hdnn timeSecond_pos]

end decor

/-- Claim C5 witness: the theorem applied to a bar 0/100 with rolling rate
10 units per 10 s, i.e. an ETA of 100 s, which lands in the `"M:SS"`
bucket. -/
theorem c5_witness :
    decor.ETAString (10 * decor.timeSecond)
      { total := 100, current := 0, rollStartTime := 0, rollCurrent := 10 } = "1:40" := by
  have h := (decor.c5_etastring_buckets (10 * decor.timeSecond)
      { total := 100, current := 0, rollStartTime := 0, rollCurrent := 10 }).2.2
        (by norm_num) (by norm_num)
  have hEta : decor.Eta (10 * decor.timeSecond)
      { total := 100, current := 0, rollStartTime := 0, rollCurrent := 10 } =
      100 * decor.timeSecond := by
    norm_num [decor.Eta, f64trunc, decor.timeSecond, decor.timeMillisecond]
  have h5 := h.2.2.2.2
  rw [hEta] at h5
  have hfin := h5 (by norm_num [decor.timeSecond, decor.timeMillisecond])
    (by norm_num [decor.timeMinute, decor.timeSecond, decor.timeMillisecond])
  rw [hfin]
  decide

/-- Claim C6 counterexample: `Format(999_500).To(Unit_k)` is `"999K"`
(suffix `"K"`, four characters), not the `"999K "` with a trailing space the
claim's format table lists. -/
theorem c6_counterexample :
    decor.formatK 999500 = "999K" ∧ decor.formatK 999500 ≠ "999K " := by
  have h : decor.formatK 999500 = "999K" := by
    norm_num [decor.formatK, decor.formatFK, decor.fmtSprint, decor.round, f64trunc,
      decor.KB, decor.MB, decor.GB, decor.TB, decor.sprint3d]
    decide
  exact ⟨h, by rw [h]; decide⟩

/-- Claim C6 (corrected): values at or above their unit print as `"%3d%s"`
when the rounded-to-0.1 value is at least 10 and as `"%.1f%s"` otherwise;
the format table holds with the last entry corrected to `"999K"` (no
trailing space). -/
theorem c6_amended :
    (∀ (f : ℚ) (ext : String),
      (10 ≤ decor.round f (1/10) → decor.fmtSprint f ext = decor.sprint3d (f64trunc f) ++ ext) ∧
      (decor.round f (1/10) < 10 → decor.fmtSprint f ext = decor.sprintDot1f f ++ ext)) ∧
    decor.formatKiB 999 = "999b  " ∧
    decor.formatKiB 1024 = "1.0KiB" ∧
    decor.formatKiB (10 * 1024) = " 10KiB" ∧
    decor.formatKB 1500000 = "1.5MB" ∧
    decor.formatK 999500 = "999K" := by
  refine ⟨fun f ext => ⟨fun h => ?_, fun h => ?_⟩, ?_, ?_, ?_, ?_, ?_⟩
  · unfold decor.fmtSprint
    rw [if_pos h]
  · unfold decor.fmtSprint
    rw [if_neg (not_le.mpr h)]
  · norm_num [decor.formatKiB, decor.formatFKiB, decor.fmtSprint, decor.round, f64trunc,
      decor.KiB, decor.MiB, decor.GiB, decor.TiB, decor.sprint3d]
    decide
  · norm_num [decor.formatKiB, decor.formatFKiB, decor.fmtSprint, decor.round, f64trunc,
      decor.KiB, decor.MiB, decor.GiB, decor.TiB, decor.sprintDot1f, decor.roundHalfEven]
    decide
  · norm_num [decor.formatKiB, decor.formatFKiB, decor.fmtSprint, decor.round, f64trunc,
      decor.KiB, decor.MiB, decor.GiB, decor.TiB, decor.sprint3d]
    decide
  · norm_num [decor.formatKB, decor.formatFKB, decor.fmtSprint, decor.round, f64trunc,
      decor.KB, decor.MB, decor.GB, decor.TB, decor.sprintDot1f, decor.roundHalfEven]
    decide
  · norm_num [decor.formatK, decor.formatFK, decor.fmtSprint, decor.round, f64trunc,
      decor.KB, decor.MB, decor.GB, decor.TB, decor.sprint3d]
    decide

/-- Claim C6 witness: the formatting rule applied at `f = 999`,
`ext = "b  "`, which takes the integer branch and prints `"999b  "`. -/
theorem c6_witness :
    decor.fmtSprint 999 "b  " = decor.sprint3d (f64trunc 999) ++ "b  " ∧
    decor.fmtSprint 999 "b  " = "999b  " := by
  have hr : (10:ℚ) ≤ decor.round 999 (1/10) := by
    norm_num [decor.round, f64trunc]
  refine ⟨(c6_amended.1 999 "b  ").1 hr, ?_⟩
  rw [(c6_amended.1 999 "b  ").1 hr]
  decide
